import Mathlib

/-!
Verification of the data-preparation pipeline in `gen_pickle.py`
(repository DeepTrafficSIgn).

The Python program is a linear batch pipeline over in-memory numpy
arrays: annotation parsing and cropping (`gt_csv_getline`,
`parse_gt_csv`), histogram-equalization preprocessing (`preproc`),
class-conditional flip augmentation (`aug_by_flip`), one-hot label
encoding (in `main`), and serialization (`save_as_pickle`).

Shallow embedding conventions:
* An image of shape (H, W, C) is a list of H rows, each a list of W
  pixels, each a list of C channel values; channel values are rationals
  (uint8 values embed into ℚ, and `preproc` divides by 255).
* The class-id column vector of shape (N, 1) is embedded as a flat
  `List Nat` of length N (one class id per sample).
* `bboxes` and `classIds` are parallel arrays of equal length (as
  produced by `parse_gt_csv`), embedded where convenient as the zipped
  list of (image, class id) pairs.
* Constants imported from the `model_sof` and `common` modules
  (NUM_CLASSES, IMG_WIDTH, IMG_HEIGHT, IMG_CHANNELS, directory names,
  dataset sizes), which are not part of the given source, are left as
  explicit parameters.
* Calls into third-party libraries (cv2 image decoding, resizing,
  color conversion, histogram equalization; the numpy global RNG) are
  modelled as explicit function arguments, so every dependence of a
  stage on the outside world is visible in its type.
-/

/-- A pixel: one channel value per channel (BGR order, as cv2 loads). -/
abbrev Pixel : Type := List ℚ

/-- A single image channel: H rows of W values. -/
abbrev Chan : Type := List (List ℚ)

/-- An image: H rows, W pixels per row, C channels per pixel. -/
abbrev Img : Type := List (List Pixel)

/-- Numpy `a[:, ::-1, :, :]` applied to one image of a batch of shape
(N, H, W, C): reverse axis 1, the height axis (rows), i.e. an
up-down flip. -/
def revAxis1 (img : Img) : Img := img.reverse

/-- Numpy `a[:, :, ::-1, :]` applied to one image of a batch of shape
(N, H, W, C): reverse axis 2, the width axis (columns), i.e. a
left-right mirror. -/
def revAxis2 (img : Img) : Img := img.map List.reverse

/-- `gen_pickle.py` line 134: classes augmented by the branch the code
comments call "horizontal flip". -/
def hflip_cls : List Nat := [11, 12, 13, 15, 17, 18, 22, 26, 30, 35]

/-- `gen_pickle.py` line 136: classes augmented by the branch the code
comments call "vertical flip". -/
def vflip_cls : List Nat := [1, 5, 12, 15, 17]

/-- `gen_pickle.py` line 138: classes flipped on both axes. -/
def hvflip_cls : List Nat := [32, 40]

/-- `gen_pickle.py` lines 140-149: flip pairs whose class id changes
under the flip (first component: source class, second: target class). -/
def hflip_cls_changed : List (Nat × Nat) :=
  [(19, 20), (33, 34), (36, 37), (38, 39), (20, 19), (34, 33), (37, 36), (39, 38)]

/-- `hflip_cls_changed[hflip_cls_changed[:, 0] == c][0][1]`: the second
component of the first table row whose first component is `c` (the
Python expression raises if no row matches; in `aug_by_flip` it is only
evaluated under the guard `c in hflip_cls_changed[:, 0]`, and the
default here is likewise unreachable under that guard). -/
def changedTarget (c : Nat) : Nat :=
  ((hflip_cls_changed.filter (fun p => p.1 == c)).headD (0, 0)).2

/-- One iteration of the `for c in range(n_classes)` loop of
`aug_by_flip` (`gen_pickle.py` lines 151-184), acting on the
accumulated augmented arrays.  `pairs` is the zipped input
(`bboxes[i]`, `classIds[i]`); `src`/`srcIds` are the samples of class
`c` (numpy `np.where(classIds == c)` followed by fancy indexing). -/
def flipStep (pairs : List (Img × Nat)) (acc : List Img × List Nat) (c : Nat) :
    List Img × List Nat :=
  let src := (pairs.filter (fun p => p.2 == c)).map Prod.fst
  let srcIds := (pairs.filter (fun p => p.2 == c)).map Prod.snd
  let acc1 := if c ∈ hflip_cls then
      (acc.1 ++ src.map revAxis1, acc.2 ++ srcIds) else acc
  let acc2 := if c ∈ vflip_cls then
      (acc1.1 ++ src.map revAxis2, acc1.2 ++ srcIds) else acc1
  let acc3 := if c ∈ hvflip_cls then
      (acc2.1 ++ (src.map revAxis1).map revAxis2, acc2.2 ++ srcIds) else acc2
  if c ∈ hflip_cls_changed.map Prod.fst then
    (acc3.1 ++ src.map revAxis1, acc3.2 ++ srcIds.map (fun _ => changedTarget c))
  else acc3

/-- `aug_by_flip` (`gen_pickle.py` lines 124-186): starting from empty
augmentation buffers, loop over all class ids `c in range(n_classes)`
appending flipped copies of the samples of class `c` as dictated by the
four tables, then return the input arrays with the augmented arrays
appended.  `n_classes` stands for `model.NUM_CLASSES` (the `model_sof`
module is not part of the given source). -/
def aug_by_flip (n_classes : Nat) (bboxes : List Img) (classIds : List Nat) :
    List Img × List Nat :=
  let pairs := bboxes.zip classIds
  let aug := (List.range n_classes).foldl (flipStep pairs) ([], [])
  (bboxes ++ aug.1, classIds ++ aug.2)

/-- The contribution of the loop iteration for class `c` to the
augmented arrays: the four conditional appends of `flipStep`, laid out
as one concatenation (first component: images, second: class ids). -/
def classContrib (pairs : List (Img × Nat)) (c : Nat) : List Img × List Nat :=
  let src := (pairs.filter (fun p => p.2 == c)).map Prod.fst
  let srcIds := (pairs.filter (fun p => p.2 == c)).map Prod.snd
  ((if c ∈ hflip_cls then src.map revAxis1 else []) ++
      ((if c ∈ vflip_cls then src.map revAxis2 else []) ++
        ((if c ∈ hvflip_cls then (src.map revAxis1).map revAxis2 else []) ++
          (if c ∈ hflip_cls_changed.map Prod.fst then src.map revAxis1 else []))),
   (if c ∈ hflip_cls then srcIds else []) ++
      ((if c ∈ vflip_cls then srcIds else []) ++
        ((if c ∈ hvflip_cls then srcIds else []) ++
          (if c ∈ hflip_cls_changed.map Prod.fst then
            srcIds.map (fun _ => changedTarget c) else []))))

theorem flipStep_eq_append (pairs : List (Img × Nat)) (acc : List Img × List Nat)
    (c : Nat) :
    flipStep pairs acc c =
      (acc.1 ++ (classContrib pairs c).1, acc.2 ++ (classContrib pairs c).2) := by
  unfold flipStep classContrib
  split <;> split <;> split <;> split <;> simp

theorem foldl_flipStep_eq (pairs : List (Img × Nat)) :
    ∀ (l : List Nat) (acc : List Img × List Nat),
      l.foldl (flipStep pairs) acc =
        (acc.1 ++ (l.map (fun c => (classContrib pairs c).1)).flatten,
         acc.2 ++ (l.map (fun c => (classContrib pairs c).2)).flatten) := by
  intro l
  induction l with
  | nil => intro acc; simp
  | cons c t ih =>
    intro acc
    simp only [List.foldl_cons, ih, flipStep_eq_append, List.map_cons,
      List.flatten_cons, List.append_assoc]

/-- `save_as_pickle` (`gen_pickle.py` lines 89-102).  The call
`np.random.permutation(len(bboxes))` draws from the global numpy RNG;
the drawn index sequence is made an explicit argument `rng` so that the
dependence on RNG state is visible.  Fancy indexing `a[idx]` is
embedded as `idx.map (fun i => a.getD i default)` (for a valid
permutation every index is in range).  The serialized dictionary is
returned as the two (key, array) entries that `joblib.dump` writes. -/
def save_as_pickle {α β : Type} [Inhabited α] [Inhabited β]
    (train_or_test : String) (bboxes : List α) (classIds : List β)
    (shuffle : Bool) (rng : List Nat) :
    (String × List α) × (String × List β) :=
  let save_bboxes := if shuffle then rng.map (fun i => bboxes.getD i default) else bboxes
  let save_classIds := if shuffle then rng.map (fun i => classIds.getD i default) else classIds
  if train_or_test == "train" then
    (("train_bboxes", save_bboxes), ("train_classIds", save_classIds))
  else
    (("test_bboxes", save_bboxes), ("test_classIds", save_classIds))

/-- `cv2.split`: one channel per channel index, each of shape (H, W).
The channel count is read off the first pixel (numpy arrays are
rectangular). -/
def cvSplit (img : Img) : List Chan :=
  (List.range ((img.headD []).headD []).length).map
    (fun c => img.map (fun row => row.map (fun px => px.getD c 0)))

/-- `cv2.merge`: rebuild an (H, W, C) image from C channels of shape
(H, W). -/
def cvMerge (chs : List Chan) : Img :=
  (List.range (chs.headD []).length).map
    (fun i => (List.range ((chs.headD []).headD []).length).map
      (fun j => chs.map (fun ch => (ch.getD i []).getD j 0)))

/-- `(eq_img / 255.)`: scale every channel value into [0, 1]
(`gen_pickle.py` line 117). -/
def scale01 (img : Img) : Img :=
  img.map (fun row => row.map (fun px => px.map (fun v => v / 255)))

/-- The body of the `preproc` loop for one image (`gen_pickle.py` lines
110-117): convert BGR to YCrCb, split the channels, equalize the
histogram of channel 0 (luma), merge, convert back, scale into [0, 1].
The two cv2 color conversions and `cv2.equalizeHist` are third-party
image routines, taken as explicit function arguments. -/
def preprocBody (cvtToYCrCb cvtToBGR : Img → Img) (eqHist : Chan → Chan)
    (bbox : Img) : Img :=
  let img := cvtToYCrCb bbox
  let split_img := cvSplit img
  let split_img2 := match split_img with
    | [] => []
    | c0 :: rest => eqHist c0 :: rest
  let eq_img := cvMerge split_img2
  let eq_img2 := cvtToBGR eq_img
  scale01 eq_img2

/-- `preproc` (`gen_pickle.py` lines 105-121): a fresh buffer
`np.zeros(bboxes.shape)` is filled at every index `i` with the
processed image `i`, which is exactly a map over the images; the
class-id array is returned untouched. -/
def preproc (cvtToYCrCb cvtToBGR : Img → Img) (eqHist : Chan → Chan)
    (bboxes : List Img) (classIds : List Nat) : List Img × List Nat :=
  (bboxes.map (preprocBody cvtToYCrCb cvtToBGR eqHist), classIds)

/-- The numpy shape of an image, read off the nesting (numpy arrays are
rectangular, so the first row and first pixel determine W and C). -/
def imgShape (img : Img) : Nat × Nat × Nat :=
  (img.length, (img.headD []).length, ((img.headD []).headD []).length)

/-- The numpy shape of a single channel. -/
def chanShape (ch : Chan) : Nat × Nat :=
  (ch.length, (ch.headD []).length)

/-- `np.eye(n)`: the n × n identity matrix, as rows. -/
def npEye (n : Nat) : List (List Nat) :=
  (List.range n).map (fun i => (List.range n).map (fun j => if j = i then 1 else 0))

/-- One-hot encoding as performed in `main` (`gen_pickle.py` lines
212-215): `np.eye(NUM_CLASSES)[classIds.reshape(len(classIds))]` —
row `v` of the identity matrix for each class id `v` (`v` out of range
raises in numpy; the default here models that no meaningful row
exists). -/
def oneHotEncode (n : Nat) (classIds : List Nat) : List (List Nat) :=
  classIds.map (fun v => (npEye n).getD v [])

/-- One line of a ground-truth CSV file: the filename column, the
bbox columns (Width;Height;Roi.X1;Roi.Y1;Roi.X2;Roi.Y2) and the
ClassId column. -/
structure CsvRow where
  filename : String
  width : Nat
  height : Nat
  x1 : Nat
  y1 : Nat
  x2 : Nat
  y2 : Nat
  classId : Nat
deriving DecidableEq, Inhabited

/-- A ground-truth CSV file: the directory it lives in (Python takes
`os.path.dirname(gt_csv)`) and its parsed data rows. -/
structure CsvFile where
  dir : String
  rows : List CsvRow
deriving DecidableEq, Inhabited

/-- `gt_csv_getline` (`gen_pickle.py` lines 36-53): for every CSV file
and every row, yield the image path joined from the CSV's directory
and the Filename column, together with the row's bbox fields and
ClassId (carried here as the whole row). -/
def gt_csv_getline (gt_csvs : List CsvFile) : List (String × CsvRow) :=
  (gt_csvs.map (fun f => f.rows.map (fun r => (f.dir ++ "/" ++ r.filename, r)))).flatten

/-- `img[Roi.Y1:Roi.Y2, Roi.X1:Roi.X2]` (`gen_pickle.py` lines 74-75):
Python slicing keeps rows Y1 ≤ i < Y2 and columns X1 ≤ j < X2. -/
def cropRoi (img : Img) (r : CsvRow) : Img :=
  ((img.drop r.y1).take (r.y2 - r.y1)).map (fun row => (row.drop r.x1).take (r.x2 - r.x1))

/-- An all-zero image of shape (h, w, c) (`np.zeros`). -/
def zeroImg (h w c : Nat) : Img :=
  List.replicate h (List.replicate w (List.replicate c 0))

/-- `parse_gt_csv` (`gen_pickle.py` lines 65-86): allocate zero buffers
of length `data_size`, then for each annotation line `i` store at index
`i` the cropped, resized image and its class id.  `imread` stands for
`cv2.imread` (image decoding from disk) and `resize` for `cv2.resize`
with target size (imgW, imgH); both are third-party routines taken as
explicit arguments.  imgW, imgH, imgC stand for `model.IMG_WIDTH`,
`model.IMG_HEIGHT`, `model.IMG_CHANNELS`. -/
def parse_gt_csv (imread : String → Img) (resize : Nat → Nat → Img → Img)
    (imgW imgH imgC : Nat) (gt_csvs : List CsvFile) (data_size : Nat) :
    List Img × List Nat :=
  let init : List Img × List Nat :=
    (List.replicate data_size (zeroImg imgH imgW imgC), List.replicate data_size 0)
  (gt_csv_getline gt_csvs).enum.foldl
    (fun acc ir =>
      (acc.1.set ir.1 (resize imgW imgH (cropRoi (imread ir.2.1) ir.2.2)),
       acc.2.set ir.1 ir.2.2.classId))
    init

/-- The names of the pipeline stages of `gen_pickle.py`. -/
inductive Stage where
  | discover
  | parseCrop
  | histEq
  | flipAug
  | oneHot
  | serialize
deriving DecidableEq

/-- A dataset value flowing through `main`, tracked symbolically: each
constructor records one stage application (the stages themselves read
files and images, so only the dataflow is embedded).  `pickled` records
the `train_or_test` tag and the `shuffle` flag of the
`save_as_pickle` call. -/
inductive PipeVal where
  | rootDir (dir : String)
  | discovered (d : PipeVal)
  | parsed (d : PipeVal)
  | preproced (d : PipeVal)
  | flipped (d : PipeVal)
  | oneHotEnc (d : PipeVal)
  | pickled (tag : String) (shuffle : Bool) (d : PipeVal)
deriving DecidableEq

/-- The stages a pipeline value has passed through, in application
order. -/
def stagesOf : PipeVal → List Stage
  | .rootDir _ => []
  | .discovered d => stagesOf d ++ [Stage.discover]
  | .parsed d => stagesOf d ++ [Stage.parseCrop]
  | .preproced d => stagesOf d ++ [Stage.histEq]
  | .flipped d => stagesOf d ++ [Stage.flipAug]
  | .oneHotEnc d => stagesOf d ++ [Stage.oneHot]
  | .pickled _ _ d => stagesOf d ++ [Stage.serialize]

/-- The train-set dataflow of `main` (`gen_pickle.py` lines 189-223),
transcribed statement by statement: discover the CSVs under
TRAIN_ROOT_DIR, parse and crop, preprocess, flip-augment, one-hot
encode the labels, and save with `shuffle=True`. -/
def mainTrainSaved : PipeVal :=
  let train_gt_csvs := PipeVal.discovered (PipeVal.rootDir "TRAIN_ROOT_DIR")
  let train_data := PipeVal.parsed train_gt_csvs
  let train_data2 := PipeVal.preproced train_data
  let train_data3 := PipeVal.flipped train_data2
  let train_data4 := PipeVal.oneHotEnc train_data3
  PipeVal.pickled "train" true train_data4

/-- The test-set dataflow of `main` (`gen_pickle.py` lines 191, 195,
214-215, 224-225), transcribed statement by statement: discover the
CSVs under TEST_ROOT_DIR, parse and crop, one-hot encode the labels,
and save without shuffling; `main` applies neither `preproc` nor
`aug_by_flip` to the test arrays. -/
def mainTestSaved : PipeVal :=
  let test_gt_csvs := PipeVal.discovered (PipeVal.rootDir "TEST_ROOT_DIR")
  let test_data := PipeVal.parsed test_gt_csvs
  let test_data2 := PipeVal.oneHotEnc test_data
  PipeVal.pickled "test" false test_data2

/-- The six-stage order claimed by the specification for every
dataset. -/
def fullStageOrder : List Stage :=
  [Stage.discover, Stage.parseCrop, Stage.histEq, Stage.flipAug,
   Stage.oneHot, Stage.serialize]

/-- Claim C1 (code evaluation at the failing input): for a sample of
class 11 — a member of the table the code comments call "horizontal
flip" — `aug_by_flip` appends the copy with the HEIGHT axis reversed
(`src[:, ::-1, :, :]`, an up-down flip), which differs from the
width-axis (left-right) flip on an asymmetric 2 × 2 image; so the
direction the code applies to the horizontal-flip table is the
height-axis reversal, not the width-axis reversal the claim states. -/
theorem claim_C1_code_eval :
    (aug_by_flip 43 [[[[0], [1]], [[2], [3]]]] [11]).1
        = [[[[0], [1]], [[2], [3]]], [[[2], [3]], [[0], [1]]]]
    ∧ (aug_by_flip 43 [[[[0], [1]], [[2], [3]]]] [11]).2 = [11, 11]
    ∧ revAxis1 [[[(0 : ℚ)], [1]], [[2], [3]]] = [[[2], [3]], [[0], [1]]]
    ∧ revAxis2 [[[(0 : ℚ)], [1]], [[2], [3]]] = [[[1], [0]], [[3], [2]]]
    ∧ ([[[(2 : ℚ)], [3]], [[0], [1]]] : Img) ≠ [[[1], [0]], [[3], [2]]]
    ∧ 11 ∈ hflip_cls ∧ 1 ∈ vflip_cls := by
  refine ⟨?_, ?_, rfl, rfl, by decide, by decide, by decide⟩ <;> decide

/-- Claim C3 (counterexample): the test dataset does not pass through
the six claimed stages in order — `main` never applies the
histogram-equalization or flip-augmentation stage to the test set. -/
theorem claim_C3_counterexample : stagesOf mainTestSaved ≠ fullStageOrder := by
  decide

/-- Claim C3 (amended): the train set passes through all six stages in
the claimed order, while the test set passes through discovery,
parsing/cropping, one-hot encoding and serialization only. -/
theorem claim_C3_amended :
    stagesOf mainTrainSaved = fullStageOrder
    ∧ stagesOf mainTestSaved
        = [Stage.discover, Stage.parseCrop, Stage.oneHot, Stage.serialize] := by
  exact ⟨rfl, rfl⟩

/-- Claim C4 (counterexample): `save_as_pickle` with `shuffle=True` is
not a function of the passed-in arrays alone — two states of the
global numpy RNG (two drawn permutations) yield different serialized
content for the same input arrays. -/
theorem claim_C4_counterexample :
    save_as_pickle "train" [0, 1] [5, 6] true [0, 1]
      ≠ save_as_pickle "train" [0, 1] [5, 6] true [1, 0] := by
  decide

/-- Claim C4 (amended): every stage of the embedding is a pure
function of its explicit arguments, and `save_as_pickle` with
`shuffle=False` is independent of the RNG state: any two RNG draws
give identical serialized content. -/
theorem claim_C4_amended {α β : Type} [Inhabited α] [Inhabited β]
    (s : String) (bboxes : List α) (classIds : List β) (r1 r2 : List Nat) :
    save_as_pickle s bboxes classIds false r1
      = save_as_pickle s bboxes classIds false r2 := rfl

/-- Claim C6: the arrays returned by `aug_by_flip` start with the input
arrays unchanged — the first `len(bboxes)` images and the first
`len(classIds)` ids are the inputs — and the augmented copies are
exactly the per-class contributions appended after them. -/
theorem claim_C6_inputs_kept (n : Nat) (bboxes : List Img) (classIds : List Nat) :
    (aug_by_flip n bboxes classIds).1.take bboxes.length = bboxes
    ∧ (aug_by_flip n bboxes classIds).2.take classIds.length = classIds
    ∧ (aug_by_flip n bboxes classIds).1
        = bboxes ++
          ((List.range n).map
            (fun c => (classContrib (bboxes.zip classIds) c).1)).flatten
    ∧ (aug_by_flip n bboxes classIds).2
        = classIds ++
          ((List.range n).map
            (fun c => (classContrib (bboxes.zip classIds) c).2)).flatten := by
  simp only [aug_by_flip, foldl_flipStep_eq, List.nil_append]
  exact ⟨List.take_left bboxes _, List.take_left classIds _, trivial, trivial⟩

/-- Claim C10: any `train_or_test` value other than the exact string
"train" selects the keys "test_bboxes" / "test_classIds"; the exact
string "train" selects "train_bboxes" / "train_classIds". -/
theorem claim_C10_key_selection {α β : Type} [Inhabited α] [Inhabited β]
    (s : String) (hs : s ≠ "train")
    (bboxes : List α) (classIds : List β) (shuffle : Bool) (rng : List Nat) :
    ((save_as_pickle s bboxes classIds shuffle rng).1.1 = "test_bboxes"
      ∧ (save_as_pickle s bboxes classIds shuffle rng).2.1 = "test_classIds")
    ∧ ((save_as_pickle "train" bboxes classIds shuffle rng).1.1 = "train_bboxes"
      ∧ (save_as_pickle "train" bboxes classIds shuffle rng).2.1 = "train_classIds") := by
  have hbeq : (s == "train") = false := by
    simpa using hs
  constructor
  · unfold save_as_pickle
    rw [hbeq]
    exact ⟨rfl, rfl⟩
  · exact ⟨rfl, rfl⟩

/-- Claim C10 (witness): the misspelled tag "tset" is serialized under
the test keys, while "train" is serialized under the train keys. -/
theorem claim_C10_witness :
    "tset" ≠ "train"
    ∧ (((save_as_pickle "tset" [0] [5] false []).1.1 = "test_bboxes"
        ∧ (save_as_pickle "tset" [0] [5] false []).2.1 = "test_classIds")
      ∧ ((save_as_pickle "train" [0] [5] false []).1.1 = "train_bboxes"
        ∧ (save_as_pickle "train" [0] [5] false []).2.1 = "train_classIds")) :=
  ⟨by decide, claim_C10_key_selection "tset" (by decide) [0] [5] false []⟩

theorem classContrib_changed (pairs : List (Img × Nat)) (c : Nat)
    (h1 : c ∉ hflip_cls) (h2 : c ∉ vflip_cls) (h3 : c ∉ hvflip_cls)
    (h4 : c ∈ hflip_cls_changed.map Prod.fst) :
    classContrib pairs c =
      (((pairs.filter (fun p => p.2 == c)).map Prod.fst).map revAxis1,
       (pairs.filter (fun p => p.2 == c)).map (fun _ => changedTarget c)) := by
  simp only [classContrib]
  rw [if_neg h1, if_neg h2, if_neg h3, if_pos h4, if_neg h1, if_neg h2, if_neg h3,
    if_pos h4]
  simp only [List.nil_append, List.append_nil, List.map_map]
  rfl

/-- Claim C2: for every class id `c` in the first column of the
changed-class table, the loop iteration for `c` contributes, for each
sample of class `c`, exactly one flipped copy labelled with the paired
class `changedTarget c` (a table entry different from `c`), and the
whole output of `aug_by_flip` is the input followed by the
concatenation of these per-class contributions. -/
theorem claim_C2_changed_class (n : Nat) (bboxes : List Img) (classIds : List Nat)
    (c : Nat) (hc : c ∈ hflip_cls_changed.map Prod.fst) (hlt : c < n) :
    (aug_by_flip n bboxes classIds).1
        = bboxes ++
          ((List.range n).map
            (fun d => (classContrib (bboxes.zip classIds) d).1)).flatten
    ∧ (aug_by_flip n bboxes classIds).2
        = classIds ++
          ((List.range n).map
            (fun d => (classContrib (bboxes.zip classIds) d).2)).flatten
    ∧ (classContrib (bboxes.zip classIds) c).1
        = (((bboxes.zip classIds).filter (fun p => p.2 == c)).map Prod.fst).map revAxis1
    ∧ (classContrib (bboxes.zip classIds) c).2
        = ((bboxes.zip classIds).filter (fun p => p.2 == c)).map
            (fun _ => changedTarget c)
    ∧ (classContrib (bboxes.zip classIds) c).2.length
        = ((bboxes.zip classIds).filter (fun p => p.2 == c)).length
    ∧ c ∈ List.range n
    ∧ (c, changedTarget c) ∈ hflip_cls_changed
    ∧ changedTarget c ≠ c := by
  have hmem : c = 19 ∨ c = 33 ∨ c = 36 ∨ c = 38 ∨ c = 20 ∨ c = 34 ∨ c = 37 ∨ c = 39 := by
    simpa [hflip_cls_changed] using hc
  have h1 : c ∉ hflip_cls := by
    rcases hmem with h | h | h | h | h | h | h | h <;> subst h <;> decide
  have h2 : c ∉ vflip_cls := by
    rcases hmem with h | h | h | h | h | h | h | h <;> subst h <;> decide
  have h3 : c ∉ hvflip_cls := by
    rcases hmem with h | h | h | h | h | h | h | h <;> subst h <;> decide
  have hcontrib := classContrib_changed (bboxes.zip classIds) c h1 h2 h3 hc
  refine ⟨?_, ?_, ?_, ?_, ?_, List.mem_range.mpr hlt, ?_, ?_⟩
  · simp only [aug_by_flip, foldl_flipStep_eq, List.nil_append]
  · simp only [aug_by_flip, foldl_flipStep_eq, List.nil_append]
  · rw [hcontrib]
  · rw [hcontrib]
  · rw [hcontrib]; simp
  · rcases hmem with h | h | h | h | h | h | h | h <;> subst h <;> decide
  · rcases hmem with h | h | h | h | h | h | h | h <;> subst h <;> decide

/-- Claim C2 (witness): at a single sample of class 19 the theorem
applies with all hypotheses discharged; the appended copy is labelled
20. -/
theorem claim_C2_witness :
    19 ∈ hflip_cls_changed.map Prod.fst ∧ 19 < 43
    ∧ ((aug_by_flip 43 ([[[[0], [1]], [[2], [3]]]] : List Img) [19]).1
          = ([[[[0], [1]], [[2], [3]]]] : List Img) ++
            ((List.range 43).map
              (fun d => (classContrib (([[[[0], [1]], [[2], [3]]]] : List Img).zip [19]) d).1)).flatten
      ∧ (aug_by_flip 43 ([[[[0], [1]], [[2], [3]]]] : List Img) [19]).2
          = [19] ++
            ((List.range 43).map
              (fun d => (classContrib (([[[[0], [1]], [[2], [3]]]] : List Img).zip [19]) d).2)).flatten
      ∧ (classContrib (([[[[0], [1]], [[2], [3]]]] : List Img).zip [19]) 19).1
          = (((([[[[0], [1]], [[2], [3]]]] : List Img).zip [19]).filter
              (fun p => p.2 == 19)).map Prod.fst).map revAxis1
      ∧ (classContrib (([[[[0], [1]], [[2], [3]]]] : List Img).zip [19]) 19).2
          = ((([[[[0], [1]], [[2], [3]]]] : List Img).zip [19]).filter
              (fun p => p.2 == 19)).map (fun _ => changedTarget 19)
      ∧ (classContrib (([[[[0], [1]], [[2], [3]]]] : List Img).zip [19]) 19).2.length
          = ((([[[[0], [1]], [[2], [3]]]] : List Img).zip [19]).filter
              (fun p => p.2 == 19)).length
      ∧ 19 ∈ List.range 43
      ∧ (19, changedTarget 19) ∈ hflip_cls_changed
      ∧ changedTarget 19 ≠ 19) :=
  ⟨by decide, by decide,
    claim_C2_changed_class 43 ([[[[0], [1]], [[2], [3]]]] : List Img) [19] 19
      (by decide) (by decide)⟩

theorem range_map_getD_zip {α β : Type} [Inhabited α] [Inhabited β] :
    ∀ (l1 : List α) (l2 : List β), l2.length = l1.length →
      (List.range l1.length).map (fun i => (l1.getD i default, l2.getD i default))
        = l1.zip l2 := by
  intro l1
  induction l1 with
  | nil =>
    intro l2 h
    simp
  | cons a t1 ih =>
    intro l2 h
    cases l2 with
    | nil => simp at h
    | cons b t2 =>
      have h2 : t2.length = t1.length := by simpa using h
      simp only [List.length_cons, List.range_succ_eq_map, List.map_cons,
        List.map_map, List.getD_cons_zero, List.zip_cons_cons]
      refine congrArg (List.cons (a, b)) ?_
      rw [← ih t2 h2]
      rfl

theorem save_as_pickle_shuffled_fst {α β : Type} [Inhabited α] [Inhabited β]
    (s : String) (bboxes : List α) (classIds : List β) (rng : List Nat) :
    (save_as_pickle s bboxes classIds true rng).1.2
      = rng.map (fun i => bboxes.getD i default) := by
  simp only [save_as_pickle]
  split <;> rfl

theorem save_as_pickle_shuffled_snd {α β : Type} [Inhabited α] [Inhabited β]
    (s : String) (bboxes : List α) (classIds : List β) (rng : List Nat) :
    (save_as_pickle s bboxes classIds true rng).2.2
      = rng.map (fun i => classIds.getD i default) := by
  simp only [save_as_pickle]
  split <;> rfl

/-- Claim C5: when `save_as_pickle` shuffles, the same drawn
permutation indexes both arrays, so the multiset of (image, label)
pairs in the serialized output is the multiset of input pairs — no
pairing between an image and its label is broken. -/
theorem claim_C5_shuffle_keeps_pairs {α β : Type} [Inhabited α] [Inhabited β]
    (s : String) (bboxes : List α) (classIds : List β) (rng : List Nat)
    (hlen : classIds.length = bboxes.length)
    (hperm : rng.Perm (List.range bboxes.length)) :
    (((save_as_pickle s bboxes classIds true rng).1.2).zip
        ((save_as_pickle s bboxes classIds true rng).2.2)).Perm
      (bboxes.zip classIds) := by
  rw [save_as_pickle_shuffled_fst, save_as_pickle_shuffled_snd, List.zip_map']
  have hmap := hperm.map (fun i => (bboxes.getD i default, classIds.getD i default))
  rwa [range_map_getD_zip bboxes classIds hlen] at hmap

/-- Claim C5 (witness): shuffling the two-sample input with the drawn
permutation [1, 0] permutes images and labels together. -/
theorem claim_C5_witness :
    ([1, 0] : List Nat).Perm (List.range 2)
    ∧ (((save_as_pickle "train" [10, 20] [1, 2] true [1, 0]).1.2).zip
        ((save_as_pickle "train" [10, 20] [1, 2] true [1, 0]).2.2)).Perm
        (([10, 20] : List Nat).zip ([1, 2] : List Nat)) :=
  ⟨by decide,
    claim_C5_shuffle_keeps_pairs "train" [10, 20] [1, 2] [1, 0] (by decide) (by decide)⟩

theorem npEye_row (n v : Nat) (h : v < n) :
    (npEye n).getD v [] = (List.range n).map (fun j => if j = v then 1 else 0) := by
  rw [List.getD_eq_getElem?_getD]
  unfold npEye
  rw [List.getElem?_map, List.getElem?_range h]
  rfl

theorem oneHotEncode_getD (n : Nat) (classIds : List Nat) (i : Nat)
    (h : i < classIds.length) :
    (oneHotEncode n classIds).getD i [] = (npEye n).getD (classIds.getD i 0) [] := by
  rw [List.getD_eq_getElem?_getD]
  unfold oneHotEncode
  rw [List.getElem?_map, List.getElem?_eq_getElem h, List.getD_eq_getElem classIds 0 h]
  rfl

/-- Claim C8: one-hot encoding is correct — one encoded row per input
class id, and for a class id `v < n` the row has length `n`, entry 1
at index `v` and entry 0 at every other index below `n`. -/
theorem claim_C8_one_hot (n : Nat) (classIds : List Nat)
    (h : ∀ v ∈ classIds, v < n) :
    (oneHotEncode n classIds).length = classIds.length
    ∧ ∀ i, i < classIds.length →
        ((oneHotEncode n classIds).getD i []).length = n
        ∧ ((oneHotEncode n classIds).getD i []).getD (classIds.getD i 0) 0 = 1
        ∧ ∀ j, j < n → j ≠ classIds.getD i 0 →
            ((oneHotEncode n classIds).getD i []).getD j 0 = 0 := by
  constructor
  · simp [oneHotEncode]
  · intro i hi
    have hv : classIds.getD i 0 < n := by
      apply h
      rw [List.getD_eq_getElem classIds 0 hi]
      exact List.getElem_mem hi
    rw [oneHotEncode_getD n classIds i hi, npEye_row n (classIds.getD i 0) hv]
    refine ⟨by simp, ?_, ?_⟩
    · rw [List.getD_eq_getElem?_getD, List.getElem?_map, List.getElem?_range hv]
      simp
    · intro j hj hne
      rw [List.getD_eq_getElem?_getD, List.getElem?_map, List.getElem?_range hj]
      have hne2 : ¬ j = classIds[i]?.getD 0 := by
        rw [← List.getD_eq_getElem?_getD]
        exact hne
      simp [hne2]

/-- Claim C8 (witness): encoding the class ids [2, 0] with three
classes gives two rows; row 0 has length 3, a 1 at index 2 and a 0 at
index 1. -/
theorem claim_C8_witness :
    2 < 3 ∧ 0 < 3
    ∧ (oneHotEncode 3 [2, 0]).length = 2
    ∧ ((oneHotEncode 3 [2, 0]).getD 0 []).length = 3
    ∧ ((oneHotEncode 3 [2, 0]).getD 0 []).getD 2 0 = 1
    ∧ ((oneHotEncode 3 [2, 0]).getD 0 []).getD 1 0 = 0 := by
  have h := claim_C8_one_hot 3 [2, 0] (by decide)
  have h0 := h.2 0 (by decide)
  exact ⟨by decide, by decide, h.1, h0.1, h0.2.1, h0.2.2 1 (by decide) (by decide)⟩

theorem foldl_set_untouched {α β γ : Type} (f : α → β) (g : α → γ) (j : Nat) :
    ∀ (l : List α) (k : Nat) (buf1 : List β) (buf2 : List γ), j < k →
      ((List.enumFrom k l).foldl
          (fun acc ix => (acc.1.set ix.1 (f ix.2), acc.2.set ix.1 (g ix.2)))
          (buf1, buf2)).1[j]? = buf1[j]?
      ∧ ((List.enumFrom k l).foldl
          (fun acc ix => (acc.1.set ix.1 (f ix.2), acc.2.set ix.1 (g ix.2)))
          (buf1, buf2)).2[j]? = buf2[j]? := by
  intro l
  induction l with
  | nil => intro k buf1 buf2 hjk; exact ⟨rfl, rfl⟩
  | cons x xs ih =>
    intro k buf1 buf2 hjk
    have hstep := ih (k + 1) (buf1.set k (f x)) (buf2.set k (g x))
      (Nat.lt_succ_of_lt hjk)
    refine ⟨?_, ?_⟩
    · rw [show List.enumFrom k (x :: xs) = (k, x) :: List.enumFrom (k + 1) xs from rfl,
        List.foldl_cons]
      rw [hstep.1]
      exact List.getElem?_set_ne (Nat.ne_of_gt hjk)
    · rw [show List.enumFrom k (x :: xs) = (k, x) :: List.enumFrom (k + 1) xs from rfl,
        List.foldl_cons]
      rw [hstep.2]
      exact List.getElem?_set_ne (Nat.ne_of_gt hjk)

theorem foldl_set_spec {α β γ : Type} (f : α → β) (g : α → γ) :
    ∀ (l : List α) (k : Nat) (buf1 : List β) (buf2 : List γ),
      k + l.length ≤ buf1.length → k + l.length ≤ buf2.length →
      ∀ i x, l[i]? = some x →
        ((List.enumFrom k l).foldl
            (fun acc ix => (acc.1.set ix.1 (f ix.2), acc.2.set ix.1 (g ix.2)))
            (buf1, buf2)).1[k + i]? = some (f x)
        ∧ ((List.enumFrom k l).foldl
            (fun acc ix => (acc.1.set ix.1 (f ix.2), acc.2.set ix.1 (g ix.2)))
            (buf1, buf2)).2[k + i]? = some (g x) := by
  intro l
  induction l with
  | nil =>
    intro k buf1 buf2 hb1 hb2 i x hx
    simp at hx
  | cons y ys ih =>
    intro k buf1 buf2 hb1 hb2 i x hx
    rw [show List.enumFrom k (y :: ys) = (k, y) :: List.enumFrom (k + 1) ys from rfl,
      List.foldl_cons]
    dsimp only
    cases i with
    | zero =>
      have hxy : y = x := by simpa using hx
      subst hxy
      have hk1 : k < buf1.length := by
        have := hb1
        simp only [List.length_cons] at this
        omega
      have hk2 : k < buf2.length := by
        have := hb2
        simp only [List.length_cons] at this
        omega
      have huntouched := foldl_set_untouched f g k ys (k + 1)
        (buf1.set k (f y)) (buf2.set k (g y)) (Nat.lt_succ_self k)
      refine ⟨?_, ?_⟩
      · have h1 := huntouched.1
        rw [List.getElem?_set_self hk1] at h1
        simpa using h1
      · have h2 := huntouched.2
        rw [List.getElem?_set_self hk2] at h2
        simpa using h2
    | succ i2 =>
      have hx2 : ys[i2]? = some x := by simpa using hx
      have hrec := ih (k + 1) (buf1.set k (f y)) (buf2.set k (g y))
        (by simp only [List.length_set]; simp only [List.length_cons] at hb1; omega)
        (by simp only [List.length_set]; simp only [List.length_cons] at hb2; omega)
        i2 x hx2
      have hidx : k + (i2 + 1) = (k + 1) + i2 := by omega
      rw [hidx]
      exact hrec

/-- Claim C9: for the `i`-th annotation line yielded by
`gt_csv_getline` — path `p` and row `r` — `parse_gt_csv` stores at
index `i` the region of `imread p` delimited by rows Roi.Y1 to Roi.Y2
and columns Roi.X1 to Roi.X2, resized to the target (width, height),
and stores the row's ClassId at index `i` of the class-id array. -/
theorem claim_C9_parse_stores (imread : String → Img)
    (resize : Nat → Nat → Img → Img) (imgW imgH imgC : Nat)
    (gt_csvs : List CsvFile) (data_size : Nat)
    (hlen : (gt_csv_getline gt_csvs).length ≤ data_size)
    (i : Nat) (p : String) (r : CsvRow)
    (hi : (gt_csv_getline gt_csvs)[i]? = some (p, r)) :
    (parse_gt_csv imread resize imgW imgH imgC gt_csvs data_size).1[i]?
        = some (resize imgW imgH (cropRoi (imread p) r))
    ∧ (parse_gt_csv imread resize imgW imgH imgC gt_csvs data_size).2[i]?
        = some r.classId := by
  have h := foldl_set_spec
    (fun x : String × CsvRow => resize imgW imgH (cropRoi (imread x.1) x.2))
    (fun x : String × CsvRow => x.2.classId)
    (gt_csv_getline gt_csvs) 0
    (List.replicate data_size (zeroImg imgH imgW imgC))
    (List.replicate data_size 0)
    (by simpa using hlen) (by simpa using hlen) i (p, r) hi
  simp only [Nat.zero_add] at h
  simpa [parse_gt_csv] using h

/-- Claim C9 (witness): one CSV file in directory "d" with one row
whose Roi is rows 0-2, columns 1-3 of the decoded 2 × 2 image; the
parsed buffer holds the cropped (here: column-sliced) image at index 0
and the row's class id 7 at index 0. -/
theorem claim_C9_witness :
    (gt_csv_getline [CsvFile.mk "d" [CsvRow.mk "a.png" 5 5 1 0 3 2 7]]).length ≤ 1
    ∧ (gt_csv_getline [CsvFile.mk "d" [CsvRow.mk "a.png" 5 5 1 0 3 2 7]])[0]?
        = some ("d/a.png", CsvRow.mk "a.png" 5 5 1 0 3 2 7)
    ∧ (parse_gt_csv (fun _ => ([[[0], [1]], [[2], [3]]] : Img))
          (fun _ _ im => im) 4 4 1
          [CsvFile.mk "d" [CsvRow.mk "a.png" 5 5 1 0 3 2 7]] 1).1[0]?
        = some ((fun _ _ im => im : Nat → Nat → Img → Img) 4 4
            (cropRoi ((fun _ => ([[[0], [1]], [[2], [3]]] : Img)) "d/a.png")
              (CsvRow.mk "a.png" 5 5 1 0 3 2 7)))
    ∧ (parse_gt_csv (fun _ => ([[[0], [1]], [[2], [3]]] : Img))
          (fun _ _ im => im) 4 4 1
          [CsvFile.mk "d" [CsvRow.mk "a.png" 5 5 1 0 3 2 7]] 1).2[0]?
        = some (CsvRow.mk "a.png" 5 5 1 0 3 2 7).classId := by
  have h := claim_C9_parse_stores (fun _ => ([[[0], [1]], [[2], [3]]] : Img))
    (fun _ _ im => im) 4 4 1
    [CsvFile.mk "d" [CsvRow.mk "a.png" 5 5 1 0 3 2 7]] 1
    (by decide) 0 "d/a.png" (CsvRow.mk "a.png" 5 5 1 0 3 2 7) (by decide)
  exact ⟨by decide, by decide, h.1, h.2⟩

theorem imgShape_scale01 (img : Img) : imgShape (scale01 img) = imgShape img := by
  cases img with
  | nil => rfl
  | cons row rest =>
    cases row with
    | nil => simp [imgShape, scale01]
    | cons px prest => simp [imgShape, scale01]

theorem cvSplit_eq_cons (img : Img) (n : Nat)
    (h : ((img.headD []).headD []).length = n + 1) :
    cvSplit img =
      (img.map (fun row => row.map (fun px => px.getD 0 0))) ::
        ((List.range n).map
          (fun c => img.map (fun row => row.map (fun px => px.getD (c + 1) 0)))) := by
  unfold cvSplit
  rw [h, List.range_succ_eq_map, List.map_cons, List.map_map]
  rfl

theorem chanShape_headChan (img : Img) :
    chanShape (img.map (fun row => row.map (fun px => px.getD 0 0)))
      = ((imgShape img).1, (imgShape img).2.1) := by
  cases img with
  | nil => rfl
  | cons row rest => simp [chanShape, imgShape]

theorem img_dims_pos (img : Img) (hc : 0 < ((img.headD []).headD []).length) :
    0 < img.length ∧ 0 < (img.headD []).length := by
  cases img with
  | nil => simp at hc
  | cons r t =>
    cases r with
    | nil => simp at hc
    | cons px rt => exact ⟨Nat.succ_pos _, Nat.succ_pos _⟩

theorem imgShape_cvMerge (chs : List Chan) (hH : 0 < (chs.headD []).length)
    (hW : 0 < ((chs.headD []).headD []).length) :
    imgShape (cvMerge chs)
      = ((chs.headD []).length, ((chs.headD []).headD []).length, chs.length) := by
  obtain ⟨m, hm⟩ := Nat.exists_eq_succ_of_ne_zero (Nat.pos_iff_ne_zero.mp hH)
  obtain ⟨w, hw⟩ := Nat.exists_eq_succ_of_ne_zero (Nat.pos_iff_ne_zero.mp hW)
  simp only [cvMerge, imgShape, hm, hw, List.range_succ_eq_map, List.map_cons,
    List.headD_cons, List.length_cons, List.length_map, List.length_range,
    Nat.succ_eq_add_one, Prod.mk.injEq]

theorem imgShape_cvMerge_cons (c0 : Chan) (rest : List Chan) (hH : 0 < c0.length)
    (hW : 0 < (c0.headD []).length) :
    imgShape (cvMerge (c0 :: rest)) = (c0.length, (c0.headD []).length, rest.length + 1) := by
  have h := imgShape_cvMerge (c0 :: rest) hH hW
  simpa using h

theorem preprocBody_shape (cvt1 cvt2 : Img → Img) (eqH : Chan → Chan)
    (h1 : ∀ im, imgShape (cvt1 im) = imgShape im)
    (h2 : ∀ im, imgShape (cvt2 im) = imgShape im)
    (h3 : ∀ ch, chanShape (eqH ch) = chanShape ch)
    (bbox : Img) (hc : 0 < (imgShape bbox).2.2) :
    imgShape (preprocBody cvt1 cvt2 eqH bbox) = imgShape bbox := by
  have hsh := h1 bbox
  have hc2 : 0 < ((((cvt1 bbox).headD []).headD []).length) := by
    have hx : 0 < (imgShape (cvt1 bbox)).2.2 := by rw [hsh]; exact hc
    exact hx
  obtain ⟨n, hn⟩ := Nat.exists_eq_succ_of_ne_zero (Nat.pos_iff_ne_zero.mp hc2)
  obtain ⟨hHpos, hWpos⟩ := img_dims_pos (cvt1 bbox) hc2
  have hsplit := cvSplit_eq_cons (cvt1 bbox) n hn
  have hch0 := chanShape_headChan (cvt1 bbox)
  have heq := h3 ((cvt1 bbox).map (fun row => row.map (fun px => px.getD 0 0)))
  have hlen1 : ((eqH ((cvt1 bbox).map (fun row => row.map (fun px => px.getD 0 0)))).length)
      = (cvt1 bbox).length := by
    have hx := congrArg Prod.fst (heq.trans hch0)
    simpa [chanShape, imgShape] using hx
  have hlen2 : (((eqH ((cvt1 bbox).map (fun row => row.map (fun px => px.getD 0 0)))).headD []).length)
      = ((cvt1 bbox).headD []).length := by
    have hx := congrArg (fun q : Nat × Nat => q.2) (heq.trans hch0)
    simpa [chanShape, imgShape] using hx
  have hHx : 0 < ((eqH ((cvt1 bbox).map (fun row => row.map (fun px => px.getD 0 0)))).length) := by
    rw [hlen1]; exact hHpos
  have hWx : 0 < (((eqH ((cvt1 bbox).map (fun row => row.map (fun px => px.getD 0 0)))).headD []).length) := by
    rw [hlen2]; exact hWpos
  have e1 : (cvt1 bbox).length = bbox.length := congrArg (fun q : Nat × Nat × Nat => q.1) hsh
  have e2 : ((cvt1 bbox).headD []).length = (bbox.headD []).length :=
    congrArg (fun q : Nat × Nat × Nat => q.2.1) hsh
  have e3 : (((cvt1 bbox).headD []).headD []).length = ((bbox.headD []).headD []).length :=
    congrArg (fun q : Nat × Nat × Nat => q.2.2) hsh
  simp only [preprocBody, hsplit]
  rw [imgShape_scale01, h2]
  rw [imgShape_cvMerge_cons _ _ hHx hWx]
  simp only [List.headD_cons, hlen1, hlen2, List.length_cons, List.length_map,
    List.length_range, imgShape, Prod.mk.injEq]
  refine ⟨e1, e2, ?_⟩
  rw [← e3, hn]

/-- Claim C7: `preproc` returns its class-id array unchanged, returns
one processed image per input image, and every processed image has the
same (numpy) shape as the corresponding input; the hypotheses record
that the cv2 color conversions and `equalizeHist` preserve array
shapes, and that input images have at least one channel. -/
theorem claim_C7_preproc_frame (cvt1 cvt2 : Img → Img) (eqH : Chan → Chan)
    (bboxes : List Img) (classIds : List Nat)
    (h1 : ∀ im, imgShape (cvt1 im) = imgShape im)
    (h2 : ∀ im, imgShape (cvt2 im) = imgShape im)
    (h3 : ∀ ch, chanShape (eqH ch) = chanShape ch)
    (hpos : ∀ im ∈ bboxes, 0 < (imgShape im).2.2) :
    (preproc cvt1 cvt2 eqH bboxes classIds).2 = classIds
    ∧ (preproc cvt1 cvt2 eqH bboxes classIds).1.length = bboxes.length
    ∧ ∀ i, i < bboxes.length →
        imgShape ((preproc cvt1 cvt2 eqH bboxes classIds).1.getD i [])
          = imgShape (bboxes.getD i []) := by
  refine ⟨rfl, by simp [preproc], ?_⟩
  intro i hi
  show imgShape ((bboxes.map (preprocBody cvt1 cvt2 eqH)).getD i [])
      = imgShape (bboxes.getD i [])
  rw [List.getD_eq_getElem?_getD, List.getElem?_map, List.getElem?_eq_getElem hi]
  show imgShape (preprocBody cvt1 cvt2 eqH bboxes[i]) = imgShape (bboxes.getD i [])
  rw [List.getD_eq_getElem bboxes [] hi]
  exact preprocBody_shape cvt1 cvt2 eqH h1 h2 h3 bboxes[i]
    (hpos bboxes[i] (List.getElem_mem hi))

/-- Claim C7 (witness): with identity stand-ins for the cv2 routines
and a 1 × 1 × 3 input image, `preproc` keeps the class ids [7],
returns one image, and preserves its shape. -/
theorem claim_C7_witness :
    (preproc id id id [[[[1, 2, 3]]]] [7]).2 = [7]
    ∧ (preproc id id id [[[[1, 2, 3]]]] [7]).1.length = 1
    ∧ imgShape ((preproc id id id [[[[1, 2, 3]]]] [7]).1.getD 0 [])
        = imgShape (([[[[(1 : ℚ), 2, 3]]]] : List Img).getD 0 []) := by
  have h := claim_C7_preproc_frame id id id [[[[1, 2, 3]]]] [7]
    (fun _ => rfl) (fun _ => rfl) (fun _ => rfl) (by decide)
  exact ⟨h.1, h.2.1, h.2.2 0 (by decide)⟩
